import Mathlib

/-!
Verification of the drag-to-reorder list component (react-native-draglist).

The development shallowly embeds the gesture-controller / reorder-commit
logic of src/index.tsx:

* `PosExtent`, `LayoutCache`  — the layout cache of measured rows;
* `targetWalk`                — the walk in updateRendering that maps a probe
                                position to a target index (panIndex);
* `DLState`, `Ev`, `Out`, `step`, `run`
                              — the component state, the host events that
                                drive it (layout reports, gesture grant /
                                move / release, callback settlement, data
                                changes) and the event-step semantics,
                                transcribed from the source handlers;
* `animTarget`                — the slide-offset target computed by the cell
                                renderer (the memo guarding Animated.timing).

Positions and gesture coordinates are modelled as rationals.
-/

namespace DragList

section
attribute [local semireducible] Rat.add Rat.sub Rat.mul Rat.inv

/-- Position and extent along the scroll axis (x/width if horizontal,
y/height otherwise), as stored in the layout cache. -/
structure PosExtent where
  pos : ℚ
  extent : ℚ
deriving DecidableEq, Repr

/-- The layout cache: item key to measured position+extent. Modelled as an
association list; assignment prepends (lookup returns the newest binding,
matching JS object overwrite semantics). -/
def LayoutCache := List (String × PosExtent)
deriving DecidableEq, Repr

/-- layouts[key] lookup (hasOwnProperty + read). -/
def cacheGet : LayoutCache → String → Option PosExtent
  | [], _ => none
  | (k', le) :: rest, k => if k = k' then some le else cacheGet rest k

/-- layouts[key] = le assignment. -/
def cacheSet (c : LayoutCache) (k : String) (le : PosExtent) : LayoutCache :=
  (k, le) :: c

/-- The while loop of updateRendering: starting at the head, keep advancing
while the current item is measured and its end position (pos+extent) is
strictly below the probe point; return how far we advanced.  Recursion over
the list of keys mirrors curIndex walking over dataRef.current. -/
def targetWalkGo (layouts : LayoutCache) (probe : ℚ) : List String → Nat
  | [] => 0
  | k :: rest =>
    match cacheGet layouts k with
    | none => 0
    | some le =>
      if le.pos + le.extent < probe then targetWalkGo layouts probe rest + 1 else 0

/-- Target-index walk of updateRendering: the final curIndex given the data
keys, the layout cache and the probe point clientPos + centerOffset. -/
def targetWalk (layouts : LayoutCache) (keys : List String) (probe : ℚ) : Nat :=
  targetWalkGo layouts probe keys

/-- The continuation condition of the walk at index i: item i exists, is
measured, and its end position is strictly below the probe. -/
def walkCont (layouts : LayoutCache) (keys : List String) (probe : ℚ) (i : Nat) : Bool :=
  match keys[i]? with
  | none => false
  | some k =>
    match cacheGet layouts k with
    | none => false
    | some le => decide (le.pos + le.extent < probe)

/-- End position (pos + extent) of the item at index i, when measured. -/
def entryEnd (layouts : LayoutCache) (keys : List String) (i : Nat) : Option ℚ :=
  match keys[i]? with
  | none => none
  | some k =>
    match cacheGet layouts k with
    | none => none
    | some le => some (le.pos + le.extent)

/-- Modelled from the spec: the characterization the spec gives for the
result of the target-index walk — index i is the answer when entry i-1's
end-position is at most the probe point and the probe point is strictly
below entry i's end-position (half-open on the right). Used only to compare
against the walk transcribed from the source. -/
def specWalkChar (layouts : LayoutCache) (keys : List String) (probe : ℚ) (i : Nat) : Bool :=
  (match i with
   | 0 => true
   | j + 1 =>
     match entryEnd layouts keys j with
     | none => false
     | some q => decide (q ≤ probe)) &&
  (match entryEnd layouts keys i with
   | none => false
   | some q => decide (probe < q))

/-- Component state: the refs of DragListImpl together with the host-side
gesture bookkeeping (inGesture tracks that a pan has been granted and its
release not yet delivered). -/
structure DLState where
  dataKeys : List String
  layouts : LayoutCache
  activeData : Option (String × Nat)
  panIndex : Int
  isReordering : Bool
  panGranted : Bool
  grantScrollPos : ℚ
  grantCenterOffset : ℚ
  wrapPosUpdated : Bool
  autoScrollTimer : Bool
  scrollPos : ℚ
  wrapLayout : PosExtent
  gestureOrigin : ℚ
  inGesture : Bool
  pan : ℚ
  extraKey : Option String
  extraPan : Int
  renderCount : Nat
  dataGen : Nat
deriving DecidableEq, Repr

/-- Externally observable effects of a step. -/
inductive Out where
  | reordered (fromIndex : Nat) (toIndex : Int)
  | hover (idx : Nat)
  | scrollReq (target : ℚ)
  | rejectionPropagated
deriving DecidableEq, Repr

/-- Host events driving the component. -/
inductive Ev where
  | layout (k : String) (le : PosExtent)
  | wrapLayoutEv (le : PosExtent)
  | scroll (p : ℚ)
  | dragStart (i : Nat) (k : String)
  | dragEndRow
  | grant (origin : ℚ)
  | measureDone (pagePos : ℚ)
  | move (delta : ℚ)
  | releaseBegin
  | releaseSettle (ok : Bool)
  | dataChange (newKeys : List String)
deriving DecidableEq, Repr

/-- shouldCapturePan: a new gesture is captured only when an active drag
record exists and no reorder commit is in flight. -/
def shouldCapturePan (s : DLState) : Bool :=
  s.activeData.isSome && !s.isReordering

/-- reset(shouldSetExtra): clears the active drag record, the target index,
the pan-granted flag, the center offset and the auto-scroll timer; when
shouldSetExtra, also rewrites the extra data to trigger a re-render. -/
def resetState (s : DLState) (shouldSetExtra : Bool) : DLState :=
  { s with
    activeData := none
    panIndex := -1
    extraKey := if shouldSetExtra then none else s.extraKey
    extraPan := if shouldSetExtra then -1 else s.extraPan
    renderCount := if shouldSetExtra then s.renderCount + 1 else s.renderCount
    panGranted := false
    grantCenterOffset := 0
    autoScrollTimer := false }

/-- The inner updateRendering function of onPanResponderMove: sets the pan,
recomputes the target index by the walk, and if it changed, triggers a
re-render, invokes the hover callback and stores the new target index. -/
def updateRendering (s : DLState) (wrapPos panAmount : ℚ) : DLState × List Out :=
  let probe := wrapPos + s.scrollPos + s.grantCenterOffset
  let cur := targetWalk s.layouts s.dataKeys probe
  if s.panIndex = (cur : Int) then ({ s with pan := panAmount }, [])
  else ({ s with
          pan := panAmount
          panIndex := (cur : Int)
          extraPan := (cur : Int)
          renderCount := s.renderCount + 1 }, [Out.hover cur])

/-- Body of onPanResponderMove (invoked only for a granted gesture). -/
def onMoveRun (s : DLState) (delta : ℚ) : DLState × List Out :=
  -- clearAutoScrollTimer() runs before the early-out guard
  let s0 := { s with autoScrollTimer := false }
  match s.activeData with
  | none => (s0, [])
  | some (k, _) =>
    if s.wrapPosUpdated then
      match cacheGet s.layouts k with
      | none => (s0, [])
      | some il =>
        let wrapPos := s.gestureOrigin + delta - s.wrapLayout.pos
        let panAmount := s.scrollPos - s.grantScrollPos + delta
        let u := updateRendering s0 wrapPos panAmount
        let leadingEdge := wrapPos - il.extent / 2
        let trailingEdge := wrapPos + il.extent / 2
        let offset : ℚ :=
          if leadingEdge < 0 then -il.extent
          else if s.wrapLayout.extent < trailingEdge then il.extent
          else 0
        if offset = 0 then u
        else ({ u.1 with autoScrollTimer := true },
              Out.scrollReq (max 0 (s.scrollPos + offset)) :: u.2)
    else (s0, [])

/-- The guard of onPanResponderRelease deciding whether a reorder is
committed: the target index differs from the original index, excluding the
case of dragging the last item beyond the end. -/
def releaseCond (ai : Nat) (panIndex : Int) (len : Nat) : Prop :=
  (ai : Int) ≠ panIndex ∧ ¬((ai : Int) = (len : Int) - 1 ∧ (ai : Int) < panIndex)

instance (ai : Nat) (panIndex : Int) (len : Nat) :
    Decidable (releaseCond ai panIndex len) := by
  unfold releaseCond
  infer_instance

/-- Body of onPanResponderRelease up to its await point: clears the timer,
and either begins a commit (sets the reordering flag and invokes the reorder
callback with (originalIndex, targetIndex)) or resets immediately. -/
def releaseRun (s : DLState) : DLState × List Out :=
  let s0 := { s with autoScrollTimer := false, inGesture := false }
  match s.activeData with
  | some (_, ai) =>
    if releaseCond ai s.panIndex s.dataKeys.length then
      ({ s0 with isReordering := true }, [Out.reordered ai s.panIndex])
    else (resetState s0 true, [])
  | none => (resetState s0 true, [])

/-- One event step of the component. `none` means the host cannot deliver
that event in that state (e.g. a grant is only delivered when the pan
responder callbacks — all wired to shouldCapturePan — return true, and move
and release are only delivered for a granted, unreleased gesture). -/
def step (s : DLState) (e : Ev) : Option (DLState × List Out) :=
  match e with
  | .layout k le => some ({ s with layouts := cacheSet s.layouts k le }, [])
  | .wrapLayoutEv le => some ({ s with wrapLayout := le }, [])
  | .scroll p => some ({ s with scrollPos := p }, [])
  | .dragStart i k =>
    -- a row only exists for a valid index, with the key the extractor gives
    if s.dataKeys[i]? = some k then
      -- "We don't allow dragging for lists less than 2 elements"
      if 1 < s.dataKeys.length then
        some ({ s with
                activeData := some (k, i)
                panIndex := (i : Int)
                extraKey := some k
                extraPan := (i : Int)
                renderCount := s.renderCount + 1 }, [])
      else some (s, [])
    else none
  | .dragEndRow =>
    if s.activeData.isSome && !s.panGranted then some (resetState s true, [])
    else some (s, [])
  | .grant origin =>
    if shouldCapturePan s && !s.inGesture then
      some ({ s with
              grantScrollPos := s.scrollPos
              pan := 0
              panGranted := true
              wrapPosUpdated := false
              gestureOrigin := origin
              inGesture := true }, [])
    else none
  | .measureDone pagePos =>
    -- completion of the flatWrapRef.measure callback issued by the grant
    if s.panGranted && !s.wrapPosUpdated then
      let off : ℚ :=
        match s.activeData with
        | some (k, _) =>
          match cacheGet s.layouts k with
          | some il =>
            let clientViewPos := s.gestureOrigin - pagePos
            let clientPos := clientViewPos + s.scrollPos
            let posOnActiveItem := clientPos - il.pos
            il.extent / 2 - posOnActiveItem
          | none => 0
        | none => 0
      some ({ s with
              wrapLayout := { s.wrapLayout with pos := pagePos }
              grantCenterOffset := off
              wrapPosUpdated := true }, [])
    else none
  | .move delta =>
    if s.inGesture then some (onMoveRun s delta) else none
  | .releaseBegin =>
    if s.inGesture then some (releaseRun s) else none
  | .releaseSettle ok =>
    -- settlement of the awaited onReordered callback; the finally block
    -- clears the reordering flag; a rejection is not caught and propagates
    if s.isReordering then
      some ({ s with isReordering := false },
            if ok then [] else [.rejectionPropagated])
    else none
  | .dataChange newKeys =>
    -- a new data reference bumps the generation and resets without re-render
    some (resetState
            { s with dataKeys := newKeys, dataGen := s.dataGen + 1 } false, [])

/-- Run a list of events, none of which the host could fail to deliver. -/
def run (s : DLState) : List Ev → Option DLState
  | [] => some s
  | e :: t =>
    match step s e with
    | none => none
    | some (s', _) => run s' t

/-- Initial state of a freshly mounted list over the given keys. -/
def initState (keys : List String) : DLState :=
  { dataKeys := keys
    layouts := []
    activeData := none
    panIndex := -1
    isReordering := false
    panGranted := false
    grantScrollPos := 0
    grantCenterOffset := 0
    wrapPosUpdated := false
    autoScrollTimer := false
    scrollPos := 0
    wrapLayout := { pos := 0, extent := 1 }
    gestureOrigin := 0
    inGesture := false
    pan := 0
    extraKey := none
    extraPan := -1
    renderCount := 0
    dataGen := 0 }

/-- Slide-offset target computed by the cell renderer for the row with key
ownKey at the given index (the memo guarding Animated.timing): `none` means
the memo returns without touching the animation (reordering in flight);
`some v` means the animation is driven toward v. Transcribed from the
source: the gate consults the ACTIVE item's layout entry. -/
def animTarget (isReordering : Bool) (activeData : Option (String × Nat))
    (panIndex : Int) (layouts : LayoutCache) (ownKey : String) (index : Nat) :
    Option ℚ :=
  if isReordering then none
  else
    match activeData with
    | some (ak, ai) =>
      match cacheGet layouts ak with
      | some le =>
        if ownKey = ak then some 0
        else if panIndex ≤ (index : Int) ∧ (index : Int) ≤ (ai : Int) then
          some le.extent
        else if (ai : Int) ≤ (index : Int) ∧ (index : Int) ≤ panIndex then
          some (-le.extent)
        else some 0
      | none => some 0
    | none => some 0

/-- Modelled from the spec: the same slide-offset computation but with the
gate the spec describes — the ROW'S OWN layout entry must be known (the
slide magnitude is still the active item's extent, defaulting to 0 when
unknown). Used only to compare against `animTarget`. -/
def animTargetClaim (isReordering : Bool) (activeData : Option (String × Nat))
    (panIndex : Int) (layouts : LayoutCache) (ownKey : String) (index : Nat) :
    Option ℚ :=
  if isReordering then none
  else
    match activeData with
    | some (ak, ai) =>
      if ownKey = ak then some 0
      else
        match cacheGet layouts ownKey with
        | some _ =>
          let mag : ℚ := ((cacheGet layouts ak).map PosExtent.extent).getD 0
          if panIndex ≤ (index : Int) ∧ (index : Int) ≤ (ai : Int) then
            some mag
          else if (ai : Int) ≤ (index : Int) ∧ (index : Int) ≤ panIndex then
            some (-mag)
          else some 0
        | none => some 0
    | none => some 0

/-! ### Walk lemmas -/

theorem targetWalkGo_cons (layouts : LayoutCache) (probe : ℚ) (k : String)
    (rest : List String) :
    targetWalkGo layouts probe (k :: rest) =
      (match cacheGet layouts k with
       | none => 0
       | some le =>
         if le.pos + le.extent < probe then targetWalkGo layouts probe rest + 1
         else 0) := rfl

theorem walkCont_cons_zero (layouts : LayoutCache) (k : String)
    (rest : List String) (probe : ℚ) :
    walkCont layouts (k :: rest) probe 0 =
      (match cacheGet layouts k with
       | none => false
       | some le => decide (le.pos + le.extent < probe)) := by
  unfold walkCont
  rw [List.getElem?_cons_zero]

theorem walkCont_cons_succ (layouts : LayoutCache) (k : String)
    (rest : List String) (probe : ℚ) (j : Nat) :
    walkCont layouts (k :: rest) probe (j + 1) = walkCont layouts rest probe j := by
  unfold walkCont
  rw [List.getElem?_cons_succ]

theorem walkCont_iff (layouts : LayoutCache) (keys : List String) (probe : ℚ)
    (j : Nat) :
    walkCont layouts keys probe j = true ↔
      ∃ q, entryEnd layouts keys j = some q ∧ q < probe := by
  unfold walkCont entryEnd
  cases hk : keys[j]? with
  | none => simp
  | some k =>
    cases hc : cacheGet layouts k with
    | none => simp [hc]
    | some le => simp [hc]

theorem targetWalk_char (layouts : LayoutCache) (keys : List String) (probe : ℚ) :
    (∀ j < targetWalk layouts keys probe, walkCont layouts keys probe j = true) ∧
      walkCont layouts keys probe (targetWalk layouts keys probe) = false := by
  induction keys with
  | nil =>
    refine ⟨fun j hj => absurd hj (by simp [targetWalk, targetWalkGo]), ?_⟩
    unfold walkCont
    simp [targetWalk, targetWalkGo]
  | cons k rest ih =>
    cases hget : cacheGet layouts k with
    | none =>
      have hw : targetWalk layouts (k :: rest) probe = 0 := by
        unfold targetWalk
        rw [targetWalkGo_cons, hget]
      rw [hw]
      refine ⟨fun j hj => absurd hj (by omega), ?_⟩
      rw [walkCont_cons_zero, hget]
    | some le =>
      by_cases hlt : le.pos + le.extent < probe
      · have hw : targetWalk layouts (k :: rest) probe =
            targetWalk layouts rest probe + 1 := by
          unfold targetWalk
          rw [targetWalkGo_cons, hget]
          simp [hlt]
        rw [hw]
        constructor
        · intro j hj
          cases j with
          | zero =>
            rw [walkCont_cons_zero, hget]
            simp [hlt]
          | succ j' =>
            rw [walkCont_cons_succ]
            exact ih.1 j' (by omega)
        · rw [walkCont_cons_succ]
          exact ih.2
      · have hw : targetWalk layouts (k :: rest) probe = 0 := by
          unfold targetWalk
          rw [targetWalkGo_cons, hget]
          simp [hlt]
        rw [hw]
        refine ⟨fun j hj => absurd hj (by omega), ?_⟩
        rw [walkCont_cons_zero, hget]
        simp [hlt]

theorem walk_unique (layouts : LayoutCache) (keys : List String) (probe : ℚ)
    (r : Nat)
    (h1 : ∀ j < r, walkCont layouts keys probe j = true)
    (h2 : walkCont layouts keys probe r = false) :
    r = targetWalk layouts keys probe := by
  rcases lt_trichotomy r (targetWalk layouts keys probe) with h | h | h
  · have := (targetWalk_char layouts keys probe).1 r h
    rw [this] at h2
    exact absurd h2 (by simp)
  · exact h
  · have := h1 _ h
    rw [(targetWalk_char layouts keys probe).2] at this
    exact absurd this (by simp)

theorem targetWalk_le (layouts : LayoutCache) (keys : List String) (probe : ℚ) :
    targetWalk layouts keys probe ≤ keys.length := by
  induction keys with
  | nil => simp [targetWalk, targetWalkGo]
  | cons k rest ih =>
    cases hget : cacheGet layouts k with
    | none =>
      have hw : targetWalk layouts (k :: rest) probe = 0 := by
        unfold targetWalk
        rw [targetWalkGo_cons, hget]
      simp [hw]
    | some le =>
      by_cases hlt : le.pos + le.extent < probe
      · have hw : targetWalk layouts (k :: rest) probe =
            targetWalk layouts rest probe + 1 := by
          unfold targetWalk
          rw [targetWalkGo_cons, hget]
          simp [hlt]
        rw [hw, List.length_cons]
        omega
      · have hw : targetWalk layouts (k :: rest) probe = 0 := by
          unfold targetWalk
          rw [targetWalkGo_cons, hget]
          simp [hlt]
        simp [hw]

/-! ### Claim C3 -/

def c3Keys : List String := ["a", "b"]
def c3Layouts : LayoutCache := [("a", ⟨0, 10⟩), ("b", ⟨10, 10⟩)]

/-- C3 counterexample: with entries ending at 10 and 20 and the probe point
exactly at 10 (entry 0's end-position), the walk transcribed from the source
returns index 0 — it attributes a probe equal to an entry's end to that very
entry, the EARLIER item — while the characterization the claim states (end
of entry i-1 at most the probe, probe strictly below end of entry i) demands
index 1 and rejects index 0. -/
theorem C3_boundary_counterexample :
    targetWalk c3Layouts c3Keys 10 = 0 ∧
    specWalkChar c3Layouts c3Keys 10 1 = true ∧
    specWalkChar c3Layouts c3Keys 10 0 = false := by
  refine ⟨rfl, rfl, rfl⟩

/-- C3 amended: the target-index walk advances exactly past the entries
whose end-position is strictly below the probe point, and halts at the first
index that is out of range, unmeasured, or whose end-position is at least
the probe — so the interval attributed to an item is half-open on the LEFT:
a probe exactly equal to an entry's end-position attributes to that entry,
not the later one. This least-index property determines the result
uniquely. -/
theorem C3_walk_characterization (layouts : LayoutCache) (keys : List String)
    (probe : ℚ) :
    (∀ j < targetWalk layouts keys probe,
        ∃ q, entryEnd layouts keys j = some q ∧ q < probe) ∧
    (∀ q, entryEnd layouts keys (targetWalk layouts keys probe) = some q →
        probe ≤ q) ∧
    (∀ r, (∀ j < r, ∃ q, entryEnd layouts keys j = some q ∧ q < probe) →
        (∀ q, entryEnd layouts keys r = some q → probe ≤ q) →
        r = targetWalk layouts keys probe) := by
  obtain ⟨hall, hstop⟩ := targetWalk_char layouts keys probe
  refine ⟨fun j hj => (walkCont_iff layouts keys probe j).mp (hall j hj),
    fun q hq => ?_, fun r hr1 hr2 => ?_⟩
  · by_contra hlt
    have : walkCont layouts keys probe (targetWalk layouts keys probe) = true :=
      (walkCont_iff layouts keys probe _).mpr ⟨q, hq, by linarith⟩
    rw [hstop] at this
    exact absurd this (by simp)
  · refine walk_unique layouts keys probe r
      (fun j hj => (walkCont_iff layouts keys probe j).mpr (hr1 j hj)) ?_
    cases hc : walkCont layouts keys probe r with
    | false => rfl
    | true =>
      obtain ⟨q, hq, hlt⟩ := (walkCont_iff layouts keys probe r).mp hc
      exact absurd (hr2 q hq) (by linarith)

/-- C3 witness: instantiating the amended characterization on concrete data
(entries ending at 10 and 20, probe 25, both measured, list exhausted)
pins the walk result to 2 through the uniqueness clause. -/
theorem C3_walk_characterization_wit :
    2 = targetWalk c3Layouts c3Keys 25 :=
  (C3_walk_characterization c3Layouts c3Keys 25).2.2 2
    (fun j hj =>
      match j, hj with
      | 0, _ => ⟨10, rfl, by norm_num⟩
      | 1, _ => ⟨20, rfl, by norm_num⟩)
    (fun q hq => by simp [entryEnd, c3Keys] at hq)

/-! ### Step-function helper lemmas -/

theorem updateRendering_panIndex (s : DLState) (wrapPos panAmount : ℚ) :
    (updateRendering s wrapPos panAmount).1.panIndex =
      (targetWalk s.layouts s.dataKeys
        (wrapPos + s.scrollPos + s.grantCenterOffset) : Int) := by
  unfold updateRendering
  by_cases h : s.panIndex =
      (targetWalk s.layouts s.dataKeys
        (wrapPos + s.scrollPos + s.grantCenterOffset) : Int)
  · simp [h]
  · simp [h]

theorem onMoveRun_panIndex (s : DLState) (delta : ℚ) (k : String) (ai : Nat)
    (il : PosExtent) (hact : s.activeData = some (k, ai))
    (hupd : s.wrapPosUpdated = true) (hmeas : cacheGet s.layouts k = some il) :
    (onMoveRun s delta).1.panIndex =
      (targetWalk s.layouts s.dataKeys
        (s.gestureOrigin + delta - s.wrapLayout.pos + s.scrollPos +
          s.grantCenterOffset) : Int) := by
  unfold onMoveRun
  rw [hact]
  simp only [hupd, if_true, hmeas]
  by_cases hoff :
      (if s.gestureOrigin + delta - s.wrapLayout.pos - il.extent / 2 < 0 then
        -il.extent
      else if s.wrapLayout.extent <
          s.gestureOrigin + delta - s.wrapLayout.pos + il.extent / 2 then
        il.extent
      else 0) = (0 : ℚ)
  · simp only [hoff, if_pos rfl]
    exact updateRendering_panIndex _ _ _
  · simp only [if_neg hoff]
    exact updateRendering_panIndex _ _ _

/-! ### Claim C4 -/

def c4State : DLState :=
  { initState ["a", "b", "c"] with
    layouts := [("a", ⟨0, 10⟩), ("b", ⟨10, 10⟩)]
    activeData := some ("a", 0)
    panIndex := 0
    panGranted := true
    wrapPosUpdated := true
    inGesture := true
    wrapLayout := ⟨0, 1000⟩ }

/-- C4 counterexample: data has three items, only the first two measured,
the active item is item 0 and the previous target index is 0. A move whose
probe point lies beyond both measured items makes the walk stop early at
index 2 (the first unmeasured item) — and the target index is then SET to
2, with the hover callback invoked, rather than retaining its previous
value 0 as the claim states. -/
theorem C4_panindex_counterexample :
    c4State.panIndex = 0 ∧
    (step c4State (Ev.move 100)).map (fun p => p.1.panIndex) = some 2 ∧
    (step c4State (Ev.move 100)).map (fun p => p.2) = some [Out.hover 2] := by
  exact ⟨rfl, by rfl, by rfl⟩

/-- C4 amended: when every item before index j is measured with its end
strictly below the probe point and item j exists but has no layout entry
yet, the walk stops early at j and the move event completes without error,
SETTING the target index to j (the first unmeasured index) instead of
retaining the previous target index. -/
theorem C4_walk_stops_at_unmeasured (s : DLState) (delta : ℚ) (k kj : String)
    (ai j : Nat) (il : PosExtent)
    (hin : s.inGesture = true)
    (hact : s.activeData = some (k, ai))
    (hupd : s.wrapPosUpdated = true)
    (hmeas : cacheGet s.layouts k = some il)
    (hj : s.dataKeys[j]? = some kj)
    (hjunm : cacheGet s.layouts kj = none)
    (hall : ∀ m < j,
      ∃ q, entryEnd s.layouts s.dataKeys m = some q ∧
        q < s.gestureOrigin + delta - s.wrapLayout.pos + s.scrollPos +
              s.grantCenterOffset) :
    ∃ s' outs, step s (Ev.move delta) = some (s', outs) ∧
      s'.panIndex = (j : Int) := by
  have hwalk : j = targetWalk s.layouts s.dataKeys
      (s.gestureOrigin + delta - s.wrapLayout.pos + s.scrollPos +
        s.grantCenterOffset) := by
    refine walk_unique _ _ _ j
      (fun m hm => (walkCont_iff _ _ _ m).mpr (hall m hm)) ?_
    simp [walkCont, hj, hjunm]
  refine ⟨(onMoveRun s delta).1, (onMoveRun s delta).2, ?_, ?_⟩
  · simp [step, hin]
  · rw [onMoveRun_panIndex s delta k ai il hact hupd hmeas, ← hwalk]

/-- C4 witness: the amended statement applied to the concrete stop-early
state (items a, b measured, c unmeasured, probe 100). -/
theorem C4_walk_stops_at_unmeasured_wit :
    ∃ s' outs, step c4State (Ev.move 100) = some (s', outs) ∧
      s'.panIndex = ((2 : Nat) : Int) :=
  C4_walk_stops_at_unmeasured c4State 100 "a" "c" 0 2 ⟨0, 10⟩ rfl (by rfl)
    rfl (by rfl) (by rfl) (by rfl)
    (fun m hm =>
      match m, hm with
      | 0, _ => ⟨10, by rfl, by norm_num [c4State, initState]⟩
      | 1, _ => ⟨20, by rfl, by norm_num [c4State, initState]⟩)

/-! ### Claim C9 -/

/-- C9: during a granted gesture, if the container position has not been
re-measured since the grant, or there is no active drag record, or the
active item itself has no layout entry, then the move handler returns at
the early guard: the state is unchanged except that any pending auto-scroll
timer is cleared, and no hover call, pan update or target-index update
happens. -/
theorem C9_move_early_return (s : DLState) (delta : ℚ)
    (hin : s.inGesture = true)
    (hguard : s.wrapPosUpdated = false ∨ s.activeData = none ∨
      ∃ k ai, s.activeData = some (k, ai) ∧ cacheGet s.layouts k = none) :
    step s (Ev.move delta) = some ({ s with autoScrollTimer := false }, []) := by
  have hrun : onMoveRun s delta = ({ s with autoScrollTimer := false }, []) := by
    unfold onMoveRun
    rcases hguard with h | h | ⟨k, ai, hk, hm⟩
    · cases hd : s.activeData with
      | none => rfl
      | some p =>
        cases p with
        | mk k i => simp [h]
    · rw [h]
    · rw [hk]
      by_cases hw : s.wrapPosUpdated <;> simp [hw, hm]
  simp [step, hin, hrun]

def c9State : DLState :=
  { initState ["a", "b"] with
    activeData := some ("a", 0)
    panIndex := 0
    panGranted := true
    inGesture := true }

/-- C9 witness: a granted gesture whose container has not yet been
re-measured (wrapPosUpdated still false) takes the early return. -/
theorem C9_move_early_return_wit :
    step c9State (Ev.move 7) =
      some ({ c9State with autoScrollTimer := false }, []) :=
  C9_move_early_return c9State 7 rfl (Or.inl rfl)

/-! ### Claim C1 -/

/-- C1: on gesture release with an active drag record (key k, original
index ai), the reorder callback is invoked — with exactly (ai, panIndex) —
if and only if the target index differs from ai and it is not the boundary
case of the last item dragged beyond its own position; in particular a drop
at the original index, or a drag of the last item past the end, invokes
nothing. -/
theorem C1_reorder_invocation_iff (s s' : DLState) (o : List Out)
    (k : String) (ai : Nat)
    (hact : s.activeData = some (k, ai))
    (hstep : step s Ev.releaseBegin = some (s', o)) :
    ((∃ i, Out.reordered ai i ∈ o) ↔
      ((ai : Int) ≠ s.panIndex ∧
        ¬((ai : Int) = (s.dataKeys.length : Int) - 1 ∧ (ai : Int) < s.panIndex))) ∧
    (s.panIndex = (ai : Int) → o = []) ∧
    (((ai : Int) = (s.dataKeys.length : Int) - 1 ∧ (ai : Int) < s.panIndex) →
      o = []) := by
  by_cases hg : s.inGesture
  · rw [show step s Ev.releaseBegin =
        (if s.inGesture then some (releaseRun s) else none) from rfl,
      if_pos hg] at hstep
    have hro : releaseRun s = (s', o) := by
      injection hstep
    have ho : o = (releaseRun s).2 := by rw [hro]
    unfold releaseRun at ho
    rw [hact] at ho
    by_cases hc : releaseCond ai s.panIndex s.dataKeys.length
    · simp only [hc, if_true] at ho
      unfold releaseCond at hc
      refine ⟨⟨fun _ => hc, fun _ => ⟨s.panIndex, by simp [ho]⟩⟩, ?_, ?_⟩
      · intro hpi
        exact absurd hpi.symm hc.1
      · intro hbound
        exact absurd hbound hc.2
    · simp only [hc, if_false] at ho
      unfold releaseCond at hc
      push_neg at hc
      constructor
      · constructor
        · intro ⟨i, hi⟩
          rw [ho] at hi
          simp at hi
        · intro ⟨hne, hnb⟩
          exact absurd (hc hne) hnb
      · exact ⟨fun _ => ho, fun _ => ho⟩
  · rw [show step s Ev.releaseBegin =
        (if s.inGesture then some (releaseRun s) else none) from rfl,
      if_neg hg] at hstep
    exact absurd hstep (by simp)

def c1State : DLState :=
  { initState ["a", "b", "c"] with
    activeData := some ("a", 0)
    panIndex := 2
    panGranted := true
    inGesture := true }

/-- C1 witness: releasing with original index 0 and target index 2 on a
three-item list invokes the callback, matching the stated condition. -/
theorem C1_reorder_invocation_iff_wit :
    ((∃ i, Out.reordered 0 i ∈ (releaseRun c1State).2) ↔
      (((0 : Nat) : Int) ≠ c1State.panIndex ∧
        ¬(((0 : Nat) : Int) = (c1State.dataKeys.length : Int) - 1 ∧
          ((0 : Nat) : Int) < c1State.panIndex))) ∧
    (c1State.panIndex = ((0 : Nat) : Int) → (releaseRun c1State).2 = []) ∧
    ((((0 : Nat) : Int) = (c1State.dataKeys.length : Int) - 1 ∧
        ((0 : Nat) : Int) < c1State.panIndex) → (releaseRun c1State).2 = []) :=
  C1_reorder_invocation_iff c1State (releaseRun c1State).1 (releaseRun c1State).2
    "a" 0 rfl (by rfl)

/-! ### Claim C7 -/

/-- C7: for a list of length at most 1, a row's onDragStart is a complete
no-op — no active drag record, no target index, no re-render (the state is
unchanged, including the render counter). -/
theorem C7_short_list_noop (s : DLState) (i : Nat) (k : String)
    (hkey : s.dataKeys[i]? = some k) (hlen : s.dataKeys.length ≤ 1) :
    step s (Ev.dragStart i k) = some (s, []) := by
  have h : ¬ 1 < s.dataKeys.length := by omega
  simp [step, hkey, h]

/-- C7 witness: on the singleton list the only row's onDragStart leaves the
state untouched. -/
theorem C7_short_list_noop_wit :
    step (initState ["a"]) (Ev.dragStart 0 "a") = some (initState ["a"], []) :=
  C7_short_list_noop (initState ["a"]) 0 "a" (by rfl) (by decide)

/-! ### Claim C10 -/

/-- C10: for a list of length > 1, any row's onDragStart unconditionally
installs that row as the active drag record and target index — there is no
guard against an existing active record or an in-flight reorder, so it
overwrites whatever was there. -/
theorem C10_dragStart_overwrites (s : DLState) (i : Nat) (k : String)
    (hkey : s.dataKeys[i]? = some k) (hlen : 1 < s.dataKeys.length) :
    step s (Ev.dragStart i k) =
      some ({ s with
              activeData := some (k, i)
              panIndex := (i : Int)
              extraKey := some k
              extraPan := (i : Int)
              renderCount := s.renderCount + 1 }, []) := by
  simp [step, hkey, hlen]

def c10State : DLState :=
  { initState ["a", "b"] with
    activeData := some ("b", 1)
    panIndex := 1
    isReordering := true }

/-- C10 witness: even with another row's record active and a reorder commit
in flight, row 0's onDragStart overwrites the record. -/
theorem C10_dragStart_overwrites_wit :
    step c10State (Ev.dragStart 0 "a") =
      some ({ c10State with
              activeData := some ("a", 0)
              panIndex := ((0 : Nat) : Int)
              extraKey := some "a"
              extraPan := ((0 : Nat) : Int)
              renderCount := c10State.renderCount + 1 }, []) :=
  C10_dragStart_overwrites c10State 0 "a" (by rfl) (by decide)

/-! ### Claim C8 -/

/-- C8 counterexample: row b (index 0) has NO layout entry of its own,
while the active item a (index 1) is measured with extent 10; target index
0 ≤ 0 ≤ 1 and the reordering flag is false. The code slides the row by +10
(its gate is the ACTIVE item's layout entry), whereas the computation worded
as the claim states it — gated on the row's own layout entry — yields 0. -/
theorem C8_gate_counterexample :
    animTarget false (some ("a", 1)) 0 [("a", ⟨0, 10⟩)] "b" 0 = some 10 ∧
    animTargetClaim false (some ("a", 1)) 0 [("a", ⟨0, 10⟩)] "b" 0 = some 0 := by
  exact ⟨by rfl, by rfl⟩

/-- C8 amended: for a non-active row at index idx during a drag (record
(activeKey, ai)), with the reordering flag false, gated on the ACTIVE
item's layout entry being known: target index ≤ idx ≤ ai slides by +extent
of the active item, ai ≤ idx ≤ target index slides by -extent, otherwise
the offset target is zero. -/
theorem C8_slide_offsets (activeKey ownKey : String) (ai idx : Nat)
    (panIndex : Int) (layouts : LayoutCache) (le : PosExtent)
    (hne : ownKey ≠ activeKey)
    (hmeas : cacheGet layouts activeKey = some le) :
    animTarget false (some (activeKey, ai)) panIndex layouts ownKey idx =
      (if panIndex ≤ (idx : Int) ∧ (idx : Int) ≤ (ai : Int) then some le.extent
       else if (ai : Int) ≤ (idx : Int) ∧ (idx : Int) ≤ panIndex then
         some (-le.extent)
       else some 0) := by
  simp [animTarget, hmeas, hne]

/-- C8 witness: concrete instance of the slide-offset formula (row b at
index 0, active item a at index 1 with extent 10, target index 0). -/
theorem C8_slide_offsets_wit :
    animTarget false (some ("a", 1)) 0 [("a", ⟨0, 10⟩), ("b", ⟨10, 4⟩)] "b" 0 =
      (if (0 : Int) ≤ ((0 : Nat) : Int) ∧ ((0 : Nat) : Int) ≤ ((1 : Nat) : Int)
       then some (PosExtent.mk 0 10).extent
       else if ((1 : Nat) : Int) ≤ ((0 : Nat) : Int) ∧
           ((0 : Nat) : Int) ≤ (0 : Int) then some (-(PosExtent.mk 0 10).extent)
       else some 0) :=
  C8_slide_offsets "a" "b" 1 0 0 [("a", ⟨0, 10⟩), ("b", ⟨10, 4⟩)] ⟨0, 10⟩
    (by decide) (by rfl)

/-! ### Claim C5 -/

def c5Trace : List Ev :=
  [.layout "a" ⟨0, 10⟩, .layout "b" ⟨10, 10⟩, .wrapLayoutEv ⟨0, 100⟩,
   .dragStart 0 "a", .grant 5, .measureDone 0, .move 12, .releaseBegin,
   .releaseSettle false]

/-- C5 counterexample: a full gesture (drag item a from index 0 to target
index 1, release, callback rejects). After the rejection settles, the
reordering flag is cleared, but the drag state is NOT reset: the active
drag record is still ("a", 0), the target index still 1 and the pan-granted
flag still true — contradicting the claim that the drag state is fully
reset via a guaranteed-cleanup path on every completed gesture. -/
theorem C5_no_reset_counterexample :
    (run (initState ["a", "b"]) c5Trace).map
        (fun s => (s.isReordering, s.activeData, s.panIndex, s.panGranted)) =
      some (false, some ("a", 0), 1, true) := by rfl

/-- C5 amended: when the awaited reorder callback settles — resolution or
rejection alike — the finally block clears the reordering flag, a rejection
propagates uncaught, and nothing else changes: the active drag record,
target index and pan-granted flag survive. The full reset happens only when
the parent delivers a new data reference (second conjunct). -/
theorem C5_cleanup_clears_flag_only (s : DLState) (ok : Bool)
    (hreo : s.isReordering = true) :
    step s (Ev.releaseSettle ok) =
      some ({ s with isReordering := false },
            if ok then [] else [Out.rejectionPropagated]) ∧
    ∀ ks, step { s with isReordering := false } (Ev.dataChange ks) =
      some (resetState
              { s with
                isReordering := false
                dataKeys := ks
                dataGen := s.dataGen + 1 } false, []) := by
  refine ⟨by simp [step, hreo], fun ks => by simp [step]⟩

def c5State : DLState :=
  { initState ["a", "b"] with
    activeData := some ("a", 0)
    panIndex := 1
    panGranted := true
    isReordering := true }

/-- C5 witness: the amended statement at a concrete in-commit state with a
rejecting callback. -/
theorem C5_cleanup_clears_flag_only_wit :
    (step c5State (Ev.releaseSettle false) =
      some ({ c5State with isReordering := false },
            if false then [] else [Out.rejectionPropagated])) ∧
    ∀ ks, step { c5State with isReordering := false } (Ev.dataChange ks) =
      some (resetState
              { c5State with
                isReordering := false
                dataKeys := ks
                dataGen := c5State.dataGen + 1 } false, []) :=
  C5_cleanup_clears_flag_only c5State false rfl

/-! ### Invariants of reachable states -/

/-- When an active drag record exists, its original index is a valid index
of the current data and the target index lies in [0, length]. -/
def Inv2 (s : DLState) : Prop :=
  ∀ k ai, s.activeData = some (k, ai) →
    ai < s.dataKeys.length ∧ 0 ≤ s.panIndex ∧
      s.panIndex ≤ (s.dataKeys.length : Int)

/-- While a reorder commit is awaiting its callback, no granted gesture is
outstanding. -/
def Inv6 (s : DLState) : Prop := s.isReordering = true → s.inGesture = false

theorem inv2_of_same (s s' : DLState)
    (ha : s'.activeData = s.activeData) (hd : s'.dataKeys = s.dataKeys)
    (hp : s'.panIndex = s.panIndex) (h2 : Inv2 s) : Inv2 s' := by
  intro k ai h
  rw [ha] at h
  rw [hd, hp]
  exact h2 k ai h

theorem inv2_of_none (s' : DLState) (ha : s'.activeData = none) : Inv2 s' := by
  intro k ai h
  rw [ha] at h
  exact absurd h (by simp)

theorem resetState_activeData (s : DLState) (b : Bool) :
    (resetState s b).activeData = none := rfl

theorem onMoveRun_shape (s : DLState) (delta : ℚ) :
    (onMoveRun s delta).1.activeData = s.activeData ∧
    (onMoveRun s delta).1.dataKeys = s.dataKeys ∧
    (onMoveRun s delta).1.isReordering = s.isReordering ∧
    (onMoveRun s delta).1.inGesture = s.inGesture ∧
    ((onMoveRun s delta).1.panIndex = s.panIndex ∨
      ∃ p, (onMoveRun s delta).1.panIndex =
        (targetWalk s.layouts s.dataKeys p : Int)) := by
  unfold onMoveRun updateRendering
  cases s.activeData with
  | none => exact ⟨rfl, rfl, rfl, rfl, Or.inl rfl⟩
  | some p =>
    cases p with
    | mk k0 i0 =>
      by_cases hw : s.wrapPosUpdated
      · simp only [hw, if_true]
        cases cacheGet s.layouts k0 with
        | none => exact ⟨rfl, rfl, rfl, rfl, Or.inl rfl⟩
        | some il =>
          dsimp only
          split_ifs with h1 h2 h2 <;>
            first
              | exact ⟨rfl, rfl, rfl, rfl, Or.inl rfl⟩
              | exact ⟨rfl, rfl, rfl, rfl, Or.inr ⟨_, rfl⟩⟩
      · simp only [hw, if_false]
        exact ⟨rfl, rfl, rfl, rfl, Or.inl rfl⟩

theorem releaseRun_inv2 (s : DLState) (h2 : Inv2 s) : Inv2 (releaseRun s).1 := by
  unfold releaseRun
  cases hact : s.activeData with
  | none => exact inv2_of_none _ rfl
  | some p =>
    cases p with
    | mk k0 i0 =>
      by_cases hc : releaseCond i0 s.panIndex s.dataKeys.length
      · simp only [hc, if_true]
        intro k ai h
        have h' : some (k0, i0) = some (k, ai) := h
        obtain ⟨rfl, rfl⟩ : k0 = k ∧ i0 = ai := by simpa using h'
        exact h2 k0 i0 hact
      · simp only [hc, if_false]
        exact inv2_of_none _ rfl

theorem step_state_eq {s x s' : DLState} {e : Ev} {ox o : List Out}
    (hx : step s e = some (x, ox)) (hstep : step s e = some (s', o)) :
    s' = x ∧ o = ox := by
  rw [hx] at hstep
  injection hstep with h
  injection h with h1 h2
  exact ⟨h1.symm, h2.symm⟩

theorem inv2_step (s s' : DLState) (e : Ev) (o : List Out)
    (h2 : Inv2 s) (hstep : step s e = some (s', o)) : Inv2 s' := by
  cases e with
  | layout k le =>
    obtain ⟨hs', -⟩ := step_state_eq (show step s (Ev.layout k le) =
      some ({ s with layouts := cacheSet s.layouts k le }, []) from rfl) hstep
    exact hs' ▸ inv2_of_same s _ rfl rfl rfl h2
  | wrapLayoutEv le =>
    obtain ⟨hs', -⟩ := step_state_eq (show step s (Ev.wrapLayoutEv le) =
      some ({ s with wrapLayout := le }, []) from rfl) hstep
    exact hs' ▸ inv2_of_same s _ rfl rfl rfl h2
  | scroll p =>
    obtain ⟨hs', -⟩ := step_state_eq (show step s (Ev.scroll p) =
      some ({ s with scrollPos := p }, []) from rfl) hstep
    exact hs' ▸ inv2_of_same s _ rfl rfl rfl h2
  | dragStart i k =>
    by_cases hkey : s.dataKeys[i]? = some k
    · obtain ⟨hilt, -⟩ := List.getElem?_eq_some.mp hkey
      by_cases hlen : 1 < s.dataKeys.length
      · obtain ⟨hs', -⟩ := step_state_eq (show step s (Ev.dragStart i k) =
          some ({ s with
                  activeData := some (k, i)
                  panIndex := (i : Int)
                  extraKey := some k
                  extraPan := (i : Int)
                  renderCount := s.renderCount + 1 }, []) from by
            simp [step, hkey, hlen]) hstep
        rw [hs']
        intro k' ai' h
        simp only [Option.some.injEq, Prod.mk.injEq] at h
        obtain ⟨-, rfl⟩ := h
        refine ⟨hilt, ?_, ?_⟩
        · show (0 : Int) ≤ (i : Int)
          positivity
        · show (i : Int) ≤ (s.dataKeys.length : Int)
          exact_mod_cast Nat.le_of_lt hilt
      · obtain ⟨hs', -⟩ := step_state_eq (show step s (Ev.dragStart i k) =
          some (s, []) from by simp [step, hkey, hlen]) hstep
        exact hs' ▸ h2
    · simp [step, hkey] at hstep
  | dragEndRow =>
    by_cases hcond : (s.activeData.isSome && !s.panGranted) = true
    · obtain ⟨hs', -⟩ := step_state_eq (show step s Ev.dragEndRow =
        some (resetState s true, []) from by simp [step, hcond]) hstep
      exact hs' ▸ inv2_of_none _ rfl
    · rw [Bool.not_eq_true] at hcond
      obtain ⟨hs', -⟩ := step_state_eq (show step s Ev.dragEndRow =
        some (s, []) from by simp [step, hcond]) hstep
      exact hs' ▸ h2
  | grant origin =>
    by_cases hcond : (shouldCapturePan s && !s.inGesture) = true
    · obtain ⟨hs', -⟩ := step_state_eq (show step s (Ev.grant origin) =
        some ({ s with
                grantScrollPos := s.scrollPos
                pan := 0
                panGranted := true
                wrapPosUpdated := false
                gestureOrigin := origin
                inGesture := true }, []) from by simp [step, hcond]) hstep
      exact hs' ▸ inv2_of_same s _ rfl rfl rfl h2
    · rw [Bool.not_eq_true] at hcond
      simp [step, hcond] at hstep
  | measureDone pagePos =>
    by_cases hcond : (s.panGranted && !s.wrapPosUpdated) = true
    · intro k ai h
      have hx : step s (Ev.measureDone pagePos) =
          some ({ s with
                  wrapLayout := { s.wrapLayout with pos := pagePos }
                  grantCenterOffset :=
                    match s.activeData with
                    | some (k, _) =>
                      match cacheGet s.layouts k with
                      | some il =>
                        il.extent / 2 -
                          (s.gestureOrigin - pagePos + s.scrollPos - il.pos)
                      | none => 0
                    | none => 0
                  wrapPosUpdated := true }, []) := by
        simp [step, hcond]
      obtain ⟨hs', -⟩ := step_state_eq hx hstep
      rw [hs'] at h ⊢
      exact h2 k ai h
    · rw [Bool.not_eq_true] at hcond
      simp [step, hcond] at hstep
  | move delta =>
    by_cases hg : s.inGesture
    · obtain ⟨hs', -⟩ := step_state_eq (show step s (Ev.move delta) =
        some ((onMoveRun s delta).1, (onMoveRun s delta).2) from by
          simp [step, hg]) hstep
      obtain ⟨ha, hd, -, -, hp⟩ := onMoveRun_shape s delta
      intro k ai h
      rw [hs', ha] at h
      rw [hs', hd]
      rcases hp with hp | ⟨p, hp⟩
      · rw [hp]
        exact h2 k ai h
      · rw [hp]
        refine ⟨(h2 k ai h).1, by positivity, ?_⟩
        exact_mod_cast targetWalk_le s.layouts s.dataKeys p
    · simp [step, hg] at hstep
  | releaseBegin =>
    by_cases hg : s.inGesture
    · obtain ⟨hs', -⟩ := step_state_eq (show step s Ev.releaseBegin =
        some ((releaseRun s).1, (releaseRun s).2) from by simp [step, hg]) hstep
      exact hs' ▸ releaseRun_inv2 s h2
    · simp [step, hg] at hstep
  | releaseSettle ok =>
    by_cases hr : s.isReordering
    · obtain ⟨hs', -⟩ := step_state_eq (show step s (Ev.releaseSettle ok) =
        some ({ s with isReordering := false },
          if ok then [] else [Out.rejectionPropagated]) from by
            simp [step, hr]) hstep
      exact hs' ▸ inv2_of_same s _ rfl rfl rfl h2
    · simp [step, hr] at hstep
  | dataChange newKeys =>
    obtain ⟨hs', -⟩ := step_state_eq (show step s (Ev.dataChange newKeys) =
      some (resetState
        { s with dataKeys := newKeys, dataGen := s.dataGen + 1 } false, [])
      from rfl) hstep
    exact hs' ▸ inv2_of_none _ rfl

theorem inv2_run (s s' : DLState) (t : List Ev) (h2 : Inv2 s)
    (hrun : run s t = some s') : Inv2 s' := by
  induction t generalizing s with
  | nil =>
    have : s = s' := by
      simpa [run] using hrun
    exact this ▸ h2
  | cons e t ih =>
    simp only [run] at hrun
    cases hstep : step s e with
    | none =>
      rw [hstep] at hrun
      exact absurd hrun (by simp)
    | some p =>
      rw [hstep] at hrun
      exact ih p.1 (inv2_step s p.1 e p.2 h2 (by rw [hstep])) hrun

theorem initState_inv2 (keys : List String) : Inv2 (initState keys) := by
  intro k ai h
  simp [initState] at h

/-! ### Claim C2 -/

theorem releaseRun_mem_reordered (s : DLState) (f : Nat) (toIdx : Int)
    (hmem : Out.reordered f toIdx ∈ (releaseRun s).2) :
    (∃ k, s.activeData = some (k, f)) ∧ toIdx = s.panIndex ∧
      releaseCond f s.panIndex s.dataKeys.length := by
  unfold releaseRun at hmem
  cases hact : s.activeData with
  | none =>
    rw [hact] at hmem
    simp at hmem
  | some p =>
    cases p with
    | mk k0 i0 =>
      rw [hact] at hmem
      by_cases hc : releaseCond i0 s.panIndex s.dataKeys.length
      · simp only [hc, if_true] at hmem
        simp only [List.mem_singleton, Out.reordered.injEq] at hmem
        obtain ⟨hf, ht⟩ := hmem
        exact ⟨⟨k0, by rw [hf]⟩, ht, by rwa [hf]⟩
      · simp only [hc, if_false] at hmem
        simp at hmem

/-- C2: whenever the reorder callback is invoked with (fromIndex, toIndex)
in any reachable state, fromIndex is a valid index of the current data
(0 ≤ fromIndex < length), toIndex lies in [0, length] inclusive, and
toIndex never equals fromIndex. -/
theorem C2_reorder_callback_bounds (keys : List String) (t : List Ev)
    (s s' : DLState) (o : List Out) (f : Nat) (toIdx : Int)
    (hrun : run (initState keys) t = some s)
    (hstep : step s Ev.releaseBegin = some (s', o))
    (hmem : Out.reordered f toIdx ∈ o) :
    f < s.dataKeys.length ∧ 0 ≤ toIdx ∧ toIdx ≤ (s.dataKeys.length : Int) ∧
      toIdx ≠ (f : Int) := by
  have h2 : Inv2 s := inv2_run _ s t (initState_inv2 keys) hrun
  by_cases hg : s.inGesture
  · simp only [step, hg, if_true, Option.some.injEq] at hstep
    have ho : o = (releaseRun s).2 := by rw [hstep]
    rw [ho] at hmem
    obtain ⟨⟨k, hact⟩, hto, hcond⟩ := releaseRun_mem_reordered s f toIdx hmem
    obtain ⟨hf, hp0, hpl⟩ := h2 k f hact
    unfold releaseCond at hcond
    refine ⟨hf, ?_, ?_, ?_⟩
    · rw [hto]
      exact hp0
    · rw [hto]
      exact hpl
    · rw [hto]
      exact fun hh => hcond.1 hh.symm
  · simp [step, hg] at hstep

def c2Trace : List Ev :=
  [.layout "a" ⟨0, 10⟩, .layout "b" ⟨10, 10⟩, .wrapLayoutEv ⟨0, 100⟩,
   .dragStart 0 "a", .grant 5, .measureDone 0, .move 12]

def c2State : DLState := (run (initState ["a", "b"]) c2Trace).getD (initState [])

/-- C2 witness: after a concrete drag of item a from index 0 to target
index 1 on a two-item list, the release invokes the callback with (0, 1),
which satisfies all the stated bounds. -/
theorem C2_reorder_callback_bounds_wit :
    0 < c2State.dataKeys.length ∧ (0 : Int) ≤ 1 ∧
      (1 : Int) ≤ (c2State.dataKeys.length : Int) ∧
      (1 : Int) ≠ ((0 : Nat) : Int) :=
  C2_reorder_callback_bounds ["a", "b"] c2Trace c2State (releaseRun c2State).1
    (releaseRun c2State).2 0 1 (by rfl) (by rfl)
    (by
      rw [show (releaseRun c2State).2 = [Out.reordered 0 1] from rfl]
      exact List.mem_singleton.mpr rfl)

/-! ### Claim C6 -/

theorem inv6_of_same (s s' : DLState)
    (hr : s'.isReordering = s.isReordering) (hg : s'.inGesture = s.inGesture)
    (h6 : Inv6 s) : Inv6 s' := by
  intro h
  rw [hg]
  exact h6 (by rw [← hr, h])

theorem initState_inv6 (keys : List String) : Inv6 (initState keys) := by
  intro h
  exact absurd h (by simp [initState])

theorem inv6_step (s s' : DLState) (e : Ev) (o : List Out)
    (h6 : Inv6 s) (hstep : step s e = some (s', o)) : Inv6 s' := by
  cases e with
  | layout k le =>
    obtain ⟨hs', -⟩ := step_state_eq (show step s (Ev.layout k le) =
      some ({ s with layouts := cacheSet s.layouts k le }, []) from rfl) hstep
    exact hs' ▸ inv6_of_same s _ rfl rfl h6
  | wrapLayoutEv le =>
    obtain ⟨hs', -⟩ := step_state_eq (show step s (Ev.wrapLayoutEv le) =
      some ({ s with wrapLayout := le }, []) from rfl) hstep
    exact hs' ▸ inv6_of_same s _ rfl rfl h6
  | scroll p =>
    obtain ⟨hs', -⟩ := step_state_eq (show step s (Ev.scroll p) =
      some ({ s with scrollPos := p }, []) from rfl) hstep
    exact hs' ▸ inv6_of_same s _ rfl rfl h6
  | dragStart i k =>
    by_cases hkey : s.dataKeys[i]? = some k
    · by_cases hlen : 1 < s.dataKeys.length
      · obtain ⟨hs', -⟩ := step_state_eq (show step s (Ev.dragStart i k) =
          some ({ s with
                  activeData := some (k, i)
                  panIndex := (i : Int)
                  extraKey := some k
                  extraPan := (i : Int)
                  renderCount := s.renderCount + 1 }, []) from by
            simp [step, hkey, hlen]) hstep
        exact hs' ▸ inv6_of_same s _ rfl rfl h6
      · obtain ⟨hs', -⟩ := step_state_eq (show step s (Ev.dragStart i k) =
          some (s, []) from by simp [step, hkey, hlen]) hstep
        exact hs' ▸ h6
    · simp [step, hkey] at hstep
  | dragEndRow =>
    by_cases hcond : (s.activeData.isSome && !s.panGranted) = true
    · obtain ⟨hs', -⟩ := step_state_eq (show step s Ev.dragEndRow =
        some (resetState s true, []) from by simp [step, hcond]) hstep
      exact hs' ▸ inv6_of_same s _ rfl rfl h6
    · rw [Bool.not_eq_true] at hcond
      obtain ⟨hs', -⟩ := step_state_eq (show step s Ev.dragEndRow =
        some (s, []) from by simp [step, hcond]) hstep
      exact hs' ▸ h6
  | grant origin =>
    by_cases hcond : (shouldCapturePan s && !s.inGesture) = true
    · obtain ⟨hs', -⟩ := step_state_eq (show step s (Ev.grant origin) =
        some ({ s with
                grantScrollPos := s.scrollPos
                pan := 0
                panGranted := true
                wrapPosUpdated := false
                gestureOrigin := origin
                inGesture := true }, []) from by simp [step, hcond]) hstep
      have hnr : s.isReordering = false := by
        have h1 := (Bool.and_eq_true _ _).mp hcond
        have h2 := h1.1
        simp only [shouldCapturePan, Bool.and_eq_true, Bool.not_eq_true'] at h2
        exact h2.2
      intro h
      rw [hs'] at h
      exact absurd (show s.isReordering = true from h) (by simp [hnr])
    · rw [Bool.not_eq_true] at hcond
      simp [step, hcond] at hstep
  | measureDone pagePos =>
    by_cases hcond : (s.panGranted && !s.wrapPosUpdated) = true
    · have hx : step s (Ev.measureDone pagePos) =
          some ({ s with
                  wrapLayout := { s.wrapLayout with pos := pagePos }
                  grantCenterOffset :=
                    match s.activeData with
                    | some (k, _) =>
                      match cacheGet s.layouts k with
                      | some il =>
                        il.extent / 2 -
                          (s.gestureOrigin - pagePos + s.scrollPos - il.pos)
                      | none => 0
                    | none => 0
                  wrapPosUpdated := true }, []) := by
        simp [step, hcond]
      obtain ⟨hs', -⟩ := step_state_eq hx hstep
      exact hs' ▸ inv6_of_same s _ rfl rfl h6
    · rw [Bool.not_eq_true] at hcond
      simp [step, hcond] at hstep
  | move delta =>
    by_cases hg : s.inGesture
    · obtain ⟨hs', -⟩ := step_state_eq (show step s (Ev.move delta) =
        some ((onMoveRun s delta).1, (onMoveRun s delta).2) from by
          simp [step, hg]) hstep
      obtain ⟨-, -, hr, hgg, -⟩ := onMoveRun_shape s delta
      exact hs' ▸ inv6_of_same s _ hr hgg h6
    · simp [step, hg] at hstep
  | releaseBegin =>
    by_cases hg : s.inGesture
    · obtain ⟨hs', -⟩ := step_state_eq (show step s Ev.releaseBegin =
        some ((releaseRun s).1, (releaseRun s).2) from by simp [step, hg]) hstep
      rw [hs']
      unfold releaseRun
      cases hact : s.activeData with
      | none => exact fun _ => rfl
      | some p =>
        cases p with
        | mk k0 i0 =>
          by_cases hc : releaseCond i0 s.panIndex s.dataKeys.length
          · simp only [hc, if_true]
            exact fun _ => rfl
          · simp only [hc, if_false]
            exact fun _ => rfl
    · simp [step, hg] at hstep
  | releaseSettle ok =>
    by_cases hr : s.isReordering
    · obtain ⟨hs', -⟩ := step_state_eq (show step s (Ev.releaseSettle ok) =
        some ({ s with isReordering := false },
          if ok then [] else [Out.rejectionPropagated]) from by
            simp [step, hr]) hstep
      intro h
      rw [hs'] at h
      exact absurd (show false = true from h) (by simp)
    · simp [step, hr] at hstep
  | dataChange newKeys =>
    obtain ⟨hs', -⟩ := step_state_eq (show step s (Ev.dataChange newKeys) =
      some (resetState
        { s with dataKeys := newKeys, dataGen := s.dataGen + 1 } false, [])
      from rfl) hstep
    exact hs' ▸ inv6_of_same s _ rfl rfl h6

theorem inv6_run (s s' : DLState) (t : List Ev) (h6 : Inv6 s)
    (hrun : run s t = some s') : Inv6 s' := by
  induction t generalizing s with
  | nil =>
    have : s = s' := by simpa [run] using hrun
    exact this ▸ h6
  | cons e t ih =>
    simp only [run] at hrun
    cases hstep : step s e with
    | none =>
      rw [hstep] at hrun
      exact absurd hrun (by simp)
    | some p =>
      rw [hstep] at hrun
      exact ih p.1 (inv6_step s p.1 e p.2 h6 (by rw [hstep])) hrun

theorem step_keeps_reordering (s s' : DLState) (e : Ev) (o : List Out)
    (h6 : Inv6 s) (hreo : s.isReordering = true)
    (hstep : step s e = some (s', o))
    (hne : ∀ ok, e ≠ Ev.releaseSettle ok) :
    s'.isReordering = true := by
  cases e with
  | releaseSettle ok => exact absurd rfl (hne ok)
  | grant origin =>
    have hcap : shouldCapturePan s = false := by
      simp [shouldCapturePan, hreo]
    simp [step, hcap] at hstep
  | move delta =>
    have hg : s.inGesture = false := h6 hreo
    simp [step, hg] at hstep
  | releaseBegin =>
    have hg : s.inGesture = false := h6 hreo
    simp [step, hg] at hstep
  | layout k le =>
    obtain ⟨hs', -⟩ := step_state_eq (show step s (Ev.layout k le) =
      some ({ s with layouts := cacheSet s.layouts k le }, []) from rfl) hstep
    rw [hs']
    exact hreo
  | wrapLayoutEv le =>
    obtain ⟨hs', -⟩ := step_state_eq (show step s (Ev.wrapLayoutEv le) =
      some ({ s with wrapLayout := le }, []) from rfl) hstep
    rw [hs']
    exact hreo
  | scroll p =>
    obtain ⟨hs', -⟩ := step_state_eq (show step s (Ev.scroll p) =
      some ({ s with scrollPos := p }, []) from rfl) hstep
    rw [hs']
    exact hreo
  | dragStart i k =>
    by_cases hkey : s.dataKeys[i]? = some k
    · by_cases hlen : 1 < s.dataKeys.length
      · obtain ⟨hs', -⟩ := step_state_eq (show step s (Ev.dragStart i k) =
          some ({ s with
                  activeData := some (k, i)
                  panIndex := (i : Int)
                  extraKey := some k
                  extraPan := (i : Int)
                  renderCount := s.renderCount + 1 }, []) from by
            simp [step, hkey, hlen]) hstep
        rw [hs']
        exact hreo
      · obtain ⟨hs', -⟩ := step_state_eq (show step s (Ev.dragStart i k) =
          some (s, []) from by simp [step, hkey, hlen]) hstep
        rw [hs']
        exact hreo
    · simp [step, hkey] at hstep
  | dragEndRow =>
    by_cases hcond : (s.activeData.isSome && !s.panGranted) = true
    · obtain ⟨hs', -⟩ := step_state_eq (show step s Ev.dragEndRow =
        some (resetState s true, []) from by simp [step, hcond]) hstep
      rw [hs']
      exact hreo
    · rw [Bool.not_eq_true] at hcond
      obtain ⟨hs', -⟩ := step_state_eq (show step s Ev.dragEndRow =
        some (s, []) from by simp [step, hcond]) hstep
      rw [hs']
      exact hreo
  | measureDone pagePos =>
    by_cases hcond : (s.panGranted && !s.wrapPosUpdated) = true
    · have hx : step s (Ev.measureDone pagePos) =
          some ({ s with
                  wrapLayout := { s.wrapLayout with pos := pagePos }
                  grantCenterOffset :=
                    match s.activeData with
                    | some (k, _) =>
                      match cacheGet s.layouts k with
                      | some il =>
                        il.extent / 2 -
                          (s.gestureOrigin - pagePos + s.scrollPos - il.pos)
                      | none => 0
                    | none => 0
                  wrapPosUpdated := true }, []) := by
        simp [step, hcond]
      obtain ⟨hs', -⟩ := step_state_eq hx hstep
      rw [hs']
      exact hreo
    · rw [Bool.not_eq_true] at hcond
      simp [step, hcond] at hstep
  | dataChange newKeys =>
    obtain ⟨hs', -⟩ := step_state_eq (show step s (Ev.dataChange newKeys) =
      some (resetState
        { s with dataKeys := newKeys, dataGen := s.dataGen + 1 } false, [])
      from rfl) hstep
    rw [hs']
    exact hreo

theorem run_keeps_reordering (s s' : DLState) (t : List Ev)
    (h6 : Inv6 s) (hreo : s.isReordering = true)
    (hrun : run s t = some s')
    (hns : ∀ e ∈ t, ∀ ok, e ≠ Ev.releaseSettle ok) :
    s'.isReordering = true := by
  induction t generalizing s with
  | nil =>
    have : s = s' := by simpa [run] using hrun
    exact this ▸ hreo
  | cons e t ih =>
    simp only [run] at hrun
    cases hstep : step s e with
    | none =>
      rw [hstep] at hrun
      exact absurd hrun (by simp)
    | some p =>
      rw [hstep] at hrun
      refine ih p.1 (inv6_step s p.1 e p.2 h6 (by rw [hstep])) ?_ hrun
        (fun e' he' => hns e' (List.mem_cons_of_mem e he'))
      exact step_keeps_reordering s p.1 e p.2 h6 hreo (by rw [hstep])
        (hns e (List.mem_cons_self e t))

theorem releaseRun_commit_reordering (s : DLState) (f : Nat) (toIdx : Int)
    (hmem : Out.reordered f toIdx ∈ (releaseRun s).2) :
    (releaseRun s).1.isReordering = true := by
  unfold releaseRun at hmem ⊢
  cases hact : s.activeData with
  | none =>
    rw [hact] at hmem
    simp at hmem
  | some p =>
    cases p with
    | mk k0 i0 =>
      rw [hact] at hmem
      by_cases hc : releaseCond i0 s.panIndex s.dataKeys.length
      · simp only [hc, if_true]
      · simp only [hc, if_false] at hmem
        simp at hmem

/-- C6: reorder commits are strictly serialized. In the commit state the
reordering flag is set and shouldCapturePan returns false, so no new
gesture can be captured; consequently, in any run of the system, between
two release steps that both invoke the reorder callback there must be a
settlement of the first callback (the awaited promise resolving or
rejecting) — a second invocation can never begin before the first has
settled. -/
theorem C6_reorders_serialized (keys : List String) (t1 t2 : List Ev)
    (s1 s2 s3 s4 : DLState) (o1 o2 : List Out) (f1 f2 : Nat) (i1 i2 : Int)
    (hrun1 : run (initState keys) t1 = some s1)
    (hstep1 : step s1 Ev.releaseBegin = some (s2, o1))
    (hmem1 : Out.reordered f1 i1 ∈ o1)
    (hrun2 : run s2 t2 = some s3)
    (hstep2 : step s3 Ev.releaseBegin = some (s4, o2))
    (_hmem2 : Out.reordered f2 i2 ∈ o2) :
    (s2.isReordering = true ∧ shouldCapturePan s2 = false) ∧
      ∃ e ∈ t2, ∃ ok, e = Ev.releaseSettle ok := by
  by_cases hg1 : s1.inGesture
  · obtain ⟨hs2, ho1⟩ := step_state_eq (show step s1 Ev.releaseBegin =
      some ((releaseRun s1).1, (releaseRun s1).2) from by simp [step, hg1])
      hstep1
    have hreo2 : s2.isReordering = true := by
      rw [hs2]
      exact releaseRun_commit_reordering s1 f1 i1 (ho1 ▸ hmem1)
    have h61 : Inv6 s1 := inv6_run _ s1 t1 (initState_inv6 keys) hrun1
    have h62 : Inv6 s2 := inv6_step s1 s2 Ev.releaseBegin o1 h61 hstep1
    refine ⟨⟨hreo2, by simp [shouldCapturePan, hreo2]⟩, ?_⟩
    by_contra hnone
    push_neg at hnone
    have hreo3 : s3.isReordering = true :=
      run_keeps_reordering s2 s3 t2 h62 hreo2 hrun2 hnone
    have h63 : Inv6 s3 := inv6_run s2 s3 t2 h62 hrun2
    have hg3 : s3.inGesture = false := h63 hreo3
    simp [step, hg3] at hstep2
  · simp [step, hg1] at hstep1

def c6t1 : List Ev :=
  [.layout "a" ⟨0, 10⟩, .layout "b" ⟨10, 10⟩, .wrapLayoutEv ⟨0, 100⟩,
   .dragStart 0 "a", .grant 5, .measureDone 0, .move 12]

def c6s1 : DLState := (run (initState ["a", "b"]) c6t1).getD (initState [])

def c6s2 : DLState := (releaseRun c6s1).1

def c6t2 : List Ev :=
  [.releaseSettle true, .grant 5, .measureDone 0, .move 25]

def c6s3 : DLState := (run c6s2 c6t2).getD (initState [])

/-- C6 witness: two complete concrete drags in sequence; the second commit
is only reachable because the settlement of the first sits in between. -/
theorem C6_reorders_serialized_wit :
    (c6s2.isReordering = true ∧ shouldCapturePan c6s2 = false) ∧
      ∃ e ∈ c6t2, ∃ ok, e = Ev.releaseSettle ok :=
  C6_reorders_serialized ["a", "b"] c6t1 c6t2 c6s1 c6s2 c6s3
    (releaseRun c6s3).1 (releaseRun c6s1).2 (releaseRun c6s3).2 0 0 1 2
    (by rfl) (by rfl)
    (by
      rw [show (releaseRun c6s1).2 = [Out.reordered 0 1] from rfl]
      exact List.mem_singleton.mpr rfl)
    (by rfl) (by rfl)
    (by
      rw [show (releaseRun c6s3).2 = [Out.reordered 0 2] from rfl]
      exact List.mem_singleton.mpr rfl)

end

end DragList
